import Mathlib

/-!
Verification of the resource lifecycle controller of a declarative
infrastructure provider for a remote asset-management API (JumpServer).

The development shallowly embeds the data model and the operations of the
three source files: the provider configuration (token exchange and the
authenticated transport), the host resource controller (create, read,
update, delete), the account resource controller (bulk create, no-op
update), and the host-suggestions query facade.

Modelling conventions:
- Go strings are modelled as Lean String; where the source manipulates raw
  bytes (the UUID parser, query escaping), the UTF-8 bytes of the string
  are computed explicitly.
- JSON values are the inductive Json below; response bodies carry the
  stdlib parse result of the raw body as an explicit field, since the JSON
  parser itself is external library code.
- Typed framework values (types.String, types.Int64, ...) are modelled
  with Option, where none stands for a null value; known values only.
- Network effects are modelled by explicit request lists and by passing
  the HTTP response as an argument to the response-handling phase.
-/

namespace JumpServer

/-- Generic JSON values, the target of the outbound translation and the
source of the inbound one. Numbers are integers, which covers every
numeric field the controller reads or writes (ports, counts). -/
inductive Json where
  | null
  | bool (b : Bool)
  | num (n : Int)
  | str (s : String)
  | arr (elems : List Json)
  | obj (fields : List (String × Json))

/-- UTF-8 encoding of one character as its byte values. Go strings are
byte slices of UTF-8 text and the UUID parser indexes bytes, so byte-level
fidelity matters for multi-byte characters. -/
def charUtf8 (c : Char) : List Nat :=
  let n := c.toNat
  if n < 128 then [n]
  else if n < 2048 then [192 + n / 64, 128 + n % 64]
  else if n < 65536 then [224 + n / 4096, 128 + (n / 64) % 64, 128 + n % 64]
  else [240 + n / 262144, 128 + (n / 4096) % 64, 128 + (n / 64) % 64, 128 + n % 64]

/-- The UTF-8 bytes of a string, the view Go indexing and len take. -/
def utf8Bytes (s : String) : List Nat :=
  s.data.flatMap charUtf8

/-- Whether a byte is an ASCII hex digit (0-9, a-f, A-F), following xtob
of the google/uuid package. -/
def isHexByte (b : Nat) : Bool :=
  (48 ≤ b && b ≤ 57) || (97 ≤ b && b ≤ 102) || (65 ≤ b && b ≤ 70)

/-- Hex-digit check at one index of a byte list; out of range is false. -/
def hexAt (l : List Nat) (i : Nat) : Bool :=
  match l.get? i with
  | some b => isHexByte b
  | none => false

/-- Start indices of the 16 hex pairs of the canonical
xxxxxxxx-xxxx-xxxx-xxxx-xxxxxxxxxxxx layout. -/
def uuidHexPairStarts : List Nat :=
  [0, 2, 4, 6, 9, 11, 14, 16, 19, 21, 24, 26, 28, 30, 32, 34]

/-- Canonical-layout check used by google/uuid Parse after length
dispatch: hyphens at byte indices 8, 13, 18, 23 and hex digits at the 16
pairs. Only the first 36 bytes are inspected, matching the parser, which
after dropping a leading brace never checks the final byte. -/
def uuidCanonical (l : List Nat) : Bool :=
  (l.get? 8 == some 45) && (l.get? 13 == some 45)
    && (l.get? 18 == some 45) && (l.get? 23 == some 45)
    && uuidHexPairStarts.all (fun x => hexAt l x && hexAt l (x + 1))

/-- ASCII lower-casing of a byte, modelling the case-insensitive prefix
comparison in google/uuid Parse (the compared pattern urn:uuid: contains
only letters whose Unicode folding coincides with ASCII folding). -/
def asciiLower (b : Nat) : Nat :=
  if 65 ≤ b && b ≤ 90 then b + 32 else b

/-- Success of uuid.Parse of the google/uuid package on the UTF-8 bytes of
the input: accepts the canonical 36-byte form, the urn:uuid: prefixed
45-byte form, the 38-byte form (leading byte dropped without checking the
braces), and the 32-byte plain-hex form. -/
def uuidParseOk (s : String) : Bool :=
  let l := utf8Bytes s
  if l.length = 36 then uuidCanonical l
  else if l.length = 45 then
    ((l.take 9).map asciiLower == utf8Bytes "urn:uuid:") && uuidCanonical (l.drop 9)
  else if l.length = 38 then uuidCanonical (l.drop 1)
  else if l.length = 32 then l.all isHexByte
  else false

/-- The cutset of strings.Trim in the account create validation: the two
typographic double quotes and the ASCII double quote. -/
def quoteCutset : List Char :=
  ['“', '”', '"']

/-- strings.Trim: drops leading and trailing runes belonging to the
cutset. -/
def trimCutset (cut : List Char) (s : String) : String :=
  String.mk (((s.data.dropWhile fun c => cut.contains c).reverse.dropWhile
    fun c => cut.contains c).reverse)

/-- Rendering of a known framework string value by its String method: the
value wrapped in ASCII double quotes (the framework quotes known string
values; values needing escape sequences are outside this model). -/
def tfStringRepr (s : String) : String :=
  "\"" ++ s ++ "\""

/-- The session credential held by the authenticated transport: bearer
token plus base URL, set once at configuration time. -/
structure AuthTransport where
  token : String
  baseURL : String
deriving Repr, DecidableEq

/-- An outbound HTTP request as built by a controller. -/
structure HttpRequest where
  method : String
  url : String
  body : Json

/-- The typed plan of the account resource: name, username, privileged,
is_active, and the list of linked asset identifiers. -/
structure AccountPlan where
  name : String
  username : String
  privileged : Bool
  isActive : Bool
  assets : List String

/-- Result of the local phase of account creation: either a validation
error on the first offending (trimmed) asset string, or the request to
send. -/
inductive AccountCreatePhase where
  | validationError (asset : String)
  | sendRequest (url : String) (body : Json)

/-- The validation loop of accountResource.Create: each element is
rendered by its String method, trimmed over the quote cutset, and parsed
as a UUID; the loop stops at the first failure, otherwise collects the
trimmed strings. -/
def validateAssets : List String → Except String (List String)
  | [] => Except.ok []
  | a :: rest =>
    let assetStr := trimCutset quoteCutset (tfStringRepr a)
    if uuidParseOk assetStr then
      match validateAssets rest with
      | Except.ok vs => Except.ok (assetStr :: vs)
      | Except.error e => Except.error e
    else Except.error assetStr

/-- The request URL of accountResource.Create, a hardcoded constant in the
source. -/
def accountBulkURL : String :=
  "http://172.30.9.65/api/v1/accounts/accounts/bulk/"

/-- Local phase of accountResource.Create: validate the asset UUIDs, build
the JSON payload, name the target URL. The configured base URL is not
consulted anywhere in this function. -/
def accountCreateLocal (p : AccountPlan) : AccountCreatePhase :=
  match validateAssets p.assets with
  | Except.error a => AccountCreatePhase.validationError a
  | Except.ok validAssets =>
    AccountCreatePhase.sendRequest accountBulkURL (Json.obj
      [("name", Json.str p.name),
       ("username", Json.str p.username),
       ("privileged", Json.bool p.privileged),
       ("is_active", Json.bool p.isActive),
       ("assets", Json.arr (validAssets.map Json.str))])

/-- The HTTP requests issued by accountResource.Create up to the bulk
POST: none when validation fails, otherwise the single bulk-create POST.
The transport argument mirrors the client the resource holds; the URL
does not depend on it. -/
def accountCreateRequests (_t : AuthTransport) (p : AccountPlan) : List HttpRequest :=
  match accountCreateLocal p with
  | AccountCreatePhase.validationError _ => []
  | AccountCreatePhase.sendRequest url body =>
    [{ method := "POST", url := url, body := body }]

/-- A typed framework attribute value inside a nested object: a nullable
string or a nullable 64-bit integer. -/
inductive AttrVal where
  | str (v : Option String)
  | int64 (v : Option Int)

/-- ValueString of a framework value: the string, or the empty string for
null (and for a non-string value, where the source type assertion would
not apply). -/
def attrValueString : AttrVal → String
  | AttrVal.str (some s) => s
  | _ => ""

/-- ValueInt64 of a framework value: the integer, or zero for null. -/
def attrValueInt64 : AttrVal → Int
  | AttrVal.int64 (some n) => n
  | _ => 0

/-- A protocol entry of the host plan: required name, optional port; none
stands for a null (absent) value. -/
structure ProtocolObject where
  name : Option String
  port : Option Int

/-- The Attributes map of a protocol object. A framework object of the
declared nested type carries an entry for every declared attribute, null
values included, so both keys are always present. -/
def protocolAttributes (p : ProtocolObject) : List (String × AttrVal) :=
  [("name", AttrVal.str p.name), ("port", AttrVal.int64 p.port)]

/-- One iteration of the protocol loop of assetHostResource.Create: looks
up the name and port attributes by key, errors when the name key is
missing, emits the name field, and emits the port field whenever the port
key was found in the attribute map. -/
def protocolToJson (p : ProtocolObject) : Except String Json :=
  let attrs := protocolAttributes p
  match attrs.lookup "name", attrs.lookup "port" with
  | none, _ => Except.error "Protocol name is required"
  | some nameAttr, portLookup =>
    let protocol := [("name", Json.str (attrValueString nameAttr))]
    let protocol :=
      match portLookup with
      | some portAttr => protocol ++ [("port", Json.num (attrValueInt64 portAttr))]
      | none => protocol
    Except.ok (Json.obj protocol)

/-- The whole protocol loop: stops at the first error, otherwise collects
the serialized entries in order. -/
def protocolsToJson : List ProtocolObject → Except String (List Json)
  | [] => Except.ok []
  | p :: rest =>
    match protocolToJson p with
    | Except.error e => Except.error e
    | Except.ok j =>
      match protocolsToJson rest with
      | Except.error e => Except.error e
      | Except.ok js => Except.ok (j :: js)

/-- The typed host resource model: computed identifier plus the declared
attributes; none stands for a null framework value. -/
structure HostPlan where
  id : Option String
  name : Option String
  ip : Option String
  platform : Option String
  nodesDisplay : Option (List String)
  protocols : List ProtocolObject

/-- The JSON value marshalled for the nodes_display field: a nil Go slice
(null or empty source list) marshals as JSON null, otherwise the string
array. -/
def nodesDisplayJson : Option (List String) → Json
  | none => Json.null
  | some [] => Json.null
  | some (n :: ns) => Json.arr ((n :: ns).map Json.str)

/-- The request body built by assetHostResource.Create: declared fields
plus the fixed is_active true; protocol serialization errors abort. An
empty protocol list marshals as JSON null (nil Go slice). -/
def hostCreateBody (plan : HostPlan) : Except String Json :=
  match protocolsToJson plan.protocols with
  | Except.error e => Except.error e
  | Except.ok protos =>
    Except.ok (Json.obj
      [("name", Json.str (plan.name.getD "")),
       ("address", Json.str (plan.ip.getD "")),
       ("platform", Json.str (plan.platform.getD "")),
       ("nodes_display", nodesDisplayJson plan.nodesDisplay),
       ("protocols", if protos.isEmpty then Json.null else Json.arr protos),
       ("is_active", Json.bool true)])

/-- An HTTP response as seen by a controller: status code, raw body, and
the stdlib JSON parse of the raw body (none when the body is not valid
JSON). -/
structure ApiResponse where
  status : Nat
  rawBody : String
  json : Option Json

/-- Lookup of a key among JSON object fields with the last duplicate
winning, as when Go builds a map from a JSON object. -/
def lookupLast (k : String) : List (String × Json) → Option Json
  | [] => none
  | (k2, v) :: rest =>
    match lookupLast k rest with
    | some r => some r
    | none => if k2 = k then some v else none

/-- Decoding a response body into a generic Go string-keyed map: succeeds
on a JSON object (fields kept) and on JSON null (nil map, no readable
fields); anything else is a decode error. -/
def decodeMap : Option Json → Option (List (String × Json))
  | some (Json.obj fs) => some fs
  | some Json.null => some []
  | _ => none

/-- Outcome of the response phase of assetHostResource.Create. -/
inductive HostCreateOutcome where
  | success (newState : HostPlan)
  | statusError (status : Nat) (body : String)
  | decodeError
  | idError

/-- Response phase of assetHostResource.Create: any status other than 201
is a status error carrying status and body; a body that does not decode
as a map is a decode error; a decoded map without an id string field is
an API error; otherwise the id is written into the plan and that plan
becomes the new state. -/
def hostCreateRespond (plan : HostPlan) (resp : ApiResponse) : HostCreateOutcome :=
  if resp.status ≠ 201 then HostCreateOutcome.statusError resp.status resp.rawBody
  else
    match decodeMap resp.json with
    | none => HostCreateOutcome.decodeError
    | some fields =>
      match lookupLast "id" fields with
      | some (Json.str id) => HostCreateOutcome.success { plan with id := some id }
      | _ => HostCreateOutcome.idError

/-- The state recorded by host Create: the new state on success, nothing
(resource stays absent) on any error. -/
def hostCreateState (plan : HostPlan) (resp : ApiResponse) : Option HostPlan :=
  match hostCreateRespond plan resp with
  | HostCreateOutcome.success st => some st
  | _ => none

/-- The success shape of host creation stated from the words of the spec:
a 201 status whose body is a JSON object containing an id string field;
yields that id. -/
def respCreatedId (resp : ApiResponse) : Option String :=
  if resp.status = 201 then
    match decodeMap resp.json with
    | some fields =>
      match lookupLast "id" fields with
      | some (Json.str id) => some id
      | _ => none
    | none => none
  else none

/-- Outcome of assetHostResource.Read. -/
inductive HostReadOutcome where
  | ok (newState : HostPlan)
  | apiError (status : Nat) (body : String)
  | decodeError

/-- assetHostResource.Read response handling: non-200 is an API error with
status and body; a non-map body is a decode error; otherwise each of
name, ip, platform is overwritten only when present in the body as a
string, and the resulting state is written back. -/
def hostRead (state : HostPlan) (resp : ApiResponse) : HostReadOutcome :=
  if resp.status ≠ 200 then HostReadOutcome.apiError resp.status resp.rawBody
  else
    match decodeMap resp.json with
    | none => HostReadOutcome.decodeError
    | some fields =>
      let st := state
      let st := match lookupLast "name" fields with
        | some (Json.str s) => { st with name := some s }
        | _ => st
      let st := match lookupLast "ip" fields with
        | some (Json.str s) => { st with ip := some s }
        | _ => st
      let st := match lookupLast "platform" fields with
        | some (Json.str s) => { st with platform := some s }
        | _ => st
      HostReadOutcome.ok st

/-- The state after a Read: the merged state on success, the prior state
otherwise (the source returns before writing state on any error). -/
def hostReadState (state : HostPlan) (resp : ApiResponse) : HostPlan :=
  match hostRead state resp with
  | HostReadOutcome.ok st => st
  | _ => state

/-- Merge of one string field as the claim words it: the response value
when present with string type, the prior value otherwise. -/
def mergeStr (j : Option Json) (prior : Option String) : Option String :=
  match j with
  | some (Json.str s) => some s
  | _ => prior

/-- Outcome of assetHostResource.Delete. -/
inductive HostDeleteOutcome where
  | removed
  | missingId
  | apiError (status : Nat) (body : String)

/-- assetHostResource.Delete: an empty identifier aborts before any
request; a response status other than 204 and 200 is an API error with
status and body; otherwise the resource is removed from state. -/
def hostDelete (state : HostPlan) (resp : ApiResponse) : HostDeleteOutcome :=
  let id := state.id.getD ""
  if id = "" then HostDeleteOutcome.missingId
  else if resp.status ≠ 204 ∧ resp.status ≠ 200 then
    HostDeleteOutcome.apiError resp.status resp.rawBody
  else HostDeleteOutcome.removed

/-- The state after a Delete: none (absent) exactly when the resource was
removed, the prior state otherwise. -/
def hostDeleteState (state : HostPlan) (resp : ApiResponse) : Option HostPlan :=
  match hostDelete state resp with
  | HostDeleteOutcome.removed => none
  | _ => some state

/-- Trace of an Update invocation: requests sent, diagnostics produced,
whether a state write happened. -/
structure NoopUpdateResult where
  requests : List HttpRequest
  diagnostics : List String
  stateWritten : Bool

/-- assetHostResource.Update has an empty body: no request, no
diagnostic, no state write. -/
def hostUpdate : NoopUpdateResult :=
  { requests := [], diagnostics := [], stateWritten := false }

/-- accountResource.Update has an empty body: no request, no diagnostic,
no state write. -/
def accountUpdate : NoopUpdateResult :=
  { requests := [], diagnostics := [], stateWritten := false }

/-- The filter attributes of the host-suggestions data source; none
stands for a null (unset) configuration value. -/
structure SuggestionsInput where
  id : Option String
  name : Option String
  address : Option String
  isActive : Option String
  typeFilter : Option String
  category : Option String
  platform : Option String
  isGateway : Option String
  excludePlatform : Option String
  domain : Option String
  protocols : Option String
  domainEnabled : Option String
  pingEnabled : Option String
  gatherFactsEnabled : Option String
  changeSecretEnabled : Option String
  pushAccountEnabled : Option String
  verifyAccountEnabled : Option String
  gatherAccountsEnabled : Option String
  search : Option String
  order : Option String
  limit : Option Int
  offset : Option Int

/-- One conditional Add of a string filter: a parameter when the value is
set, nothing when it is null. -/
def addIf (key : String) : Option String → List (String × String)
  | some v => [(key, v)]
  | none => []

/-- One conditional Add of an integer filter, formatted in decimal. -/
def addIfInt (key : String) : Option Int → List (String × String)
  | some n => [(key, toString n)]
  | none => []

/-- The query parameter list built by HostSuggestionsDataSource.Read: the
22 conditional Adds, in source order (grouped to the right, which leaves
the resulting list unchanged). -/
def buildQueryParams (d : SuggestionsInput) : List (String × String) :=
  addIf "id" d.id ++ (addIf "name" d.name ++ (addIf "address" d.address
  ++ (addIf "is_active" d.isActive ++ (addIf "type" d.typeFilter
  ++ (addIf "category" d.category ++ (addIf "platform" d.platform
  ++ (addIf "is_gateway" d.isGateway ++ (addIf "exclude_platform" d.excludePlatform
  ++ (addIf "domain" d.domain ++ (addIf "protocols" d.protocols
  ++ (addIf "domain_enabled" d.domainEnabled ++ (addIf "ping_enabled" d.pingEnabled
  ++ (addIf "gather_facts_enabled" d.gatherFactsEnabled
  ++ (addIf "change_secret_enabled" d.changeSecretEnabled
  ++ (addIf "push_account_enabled" d.pushAccountEnabled
  ++ (addIf "verify_account_enabled" d.verifyAccountEnabled
  ++ (addIf "gather_accounts_enabled" d.gatherAccountsEnabled
  ++ (addIf "search" d.search ++ (addIf "order" d.order
  ++ (addIfInt "limit" d.limit ++ addIfInt "offset" d.offset))))))))))))))))))))

/-- The filter set as declared, paired with its query key, stated from the
words of the spec: the value of each filter as set (integer filters in
their decimal rendering). -/
def filterSpecs (d : SuggestionsInput) : List (String × Option String) :=
  [("id", d.id), ("name", d.name), ("address", d.address),
   ("is_active", d.isActive), ("type", d.typeFilter),
   ("category", d.category), ("platform", d.platform),
   ("is_gateway", d.isGateway), ("exclude_platform", d.excludePlatform),
   ("domain", d.domain), ("protocols", d.protocols),
   ("domain_enabled", d.domainEnabled), ("ping_enabled", d.pingEnabled),
   ("gather_facts_enabled", d.gatherFactsEnabled),
   ("change_secret_enabled", d.changeSecretEnabled),
   ("push_account_enabled", d.pushAccountEnabled),
   ("verify_account_enabled", d.verifyAccountEnabled),
   ("gather_accounts_enabled", d.gatherAccountsEnabled),
   ("search", d.search), ("order", d.order),
   ("limit", d.limit.map toString), ("offset", d.offset.map toString)]

/-- A filter set with only the name filter populated. -/
def nameOnlyInput (v : String) : SuggestionsInput :=
  { id := none, name := some v, address := none, isActive := none,
    typeFilter := none, category := none, platform := none, isGateway := none,
    excludePlatform := none, domain := none, protocols := none,
    domainEnabled := none, pingEnabled := none, gatherFactsEnabled := none,
    changeSecretEnabled := none, pushAccountEnabled := none,
    verifyAccountEnabled := none, gatherAccountsEnabled := none,
    search := none, order := none, limit := none, offset := none }

/-- Bytes left unescaped by Go query escaping: ASCII alphanumerics and
the four marks hyphen, underscore, dot, tilde. -/
def isUnreservedByte (b : Nat) : Bool :=
  (65 ≤ b && b ≤ 90) || (97 ≤ b && b ≤ 122) || (48 ≤ b && b ≤ 57)
    || b = 45 || b = 95 || b = 46 || b = 126

/-- Uppercase hex digit of a value below 16. -/
def hexDigitChar (n : Nat) : Char :=
  if n < 10 then Char.ofNat (48 + n) else Char.ofNat (55 + n)

/-- Escape of one byte in query position: kept if unreserved, a plus sign
for space, a percent-escape otherwise. -/
def escapeByte (b : Nat) : List Char :=
  if isUnreservedByte b then [Char.ofNat b]
  else if b = 32 then ['+']
  else ['%', hexDigitChar (b / 16), hexDigitChar (b % 16)]

/-- Go url.QueryEscape over the UTF-8 bytes of the string. -/
def queryEscape (s : String) : String :=
  String.mk ((utf8Bytes s).flatMap escapeByte)

/-- Bytewise (lexicographic over UTF-8 bytes) string order, the order Go
sorts map keys in when encoding url.Values. -/
def bytesLe : List Nat → List Nat → Bool
  | [], _ => true
  | _ :: _, [] => false
  | a :: as, b :: bs => if a < b then true else if b < a then false else bytesLe as bs

/-- Insertion of one pair into a key-sorted parameter list. -/
def insertByKey (kv : String × String) : List (String × String) → List (String × String)
  | [] => [kv]
  | kv2 :: rest =>
    if bytesLe (utf8Bytes kv.1) (utf8Bytes kv2.1) then kv :: kv2 :: rest
    else kv2 :: insertByKey kv rest

/-- Key sort of the parameter list, as url.Values Encode performs. -/
def sortByKey : List (String × String) → List (String × String)
  | [] => []
  | kv :: rest => insertByKey kv (sortByKey rest)

/-- url.Values Encode: keys sorted bytewise, each pair emitted as
escaped key, equals sign, escaped value, joined with ampersands. -/
def valuesEncode (params : List (String × String)) : String :=
  String.intercalate "&"
    ((sortByKey params).map (fun kv => queryEscape kv.1 ++ "=" ++ queryEscape kv.2))

/-- One typed entry of the suggestions result: identifier and name. -/
structure SuggestEntry where
  id : String
  name : String
deriving Repr, DecidableEq

/-- Go decoding of one string field of the per-entry struct: the zero
value for a missing or null field, the string for a string field, an
error for any other type. -/
def fieldAsGoString (fields : List (String × Json)) (k : String) : Option String :=
  match lookupLast k fields with
  | none => some ""
  | some (Json.str s) => some s
  | some Json.null => some ""
  | some _ => none

/-- Go decoding of one array element into the struct with ID and Name
string fields: an object (unknown fields ignored) or null; both fields
must decode. -/
def decodeSuggestionEntry : Json → Option SuggestEntry
  | Json.obj fields =>
    match fieldAsGoString fields "id", fieldAsGoString fields "name" with
    | some i, some n => some { id := i, name := n }
    | _, _ => none
  | Json.null => some { id := "", name := "" }
  | _ => none

/-- Sequential decoding of the response array: the first failing element
aborts the whole decode. -/
def decodeEntries : List Json → Option (List SuggestEntry)
  | [] => some []
  | e :: rest =>
    match decodeSuggestionEntry e with
    | none => none
    | some b =>
      match decodeEntries rest with
      | none => none
      | some bs => some (b :: bs)

/-- The typed output of the suggestions read: reported total count, the
result entries, and the two pagination links (always set to null). -/
structure SuggestionsOutput where
  totalCount : Int
  results : List SuggestEntry
  next : Option String
  previous : Option String
deriving Repr, DecidableEq

/-- Outcome of HostSuggestionsDataSource.Read after the request. -/
inductive SuggestionsOutcome where
  | ok (out : SuggestionsOutput)
  | statusError (status : Nat)
  | decodeError

/-- Response phase of HostSuggestionsDataSource.Read: non-200 is a status
error; the body must decode as an array of entry structs (top-level null
decodes as a nil slice); the total count is the length of the decoded
slice and the results are its entries in order, pagination links null. -/
def hostSuggestionsRespond (resp : ApiResponse) : SuggestionsOutcome :=
  if resp.status ≠ 200 then SuggestionsOutcome.statusError resp.status
  else
    match resp.json with
    | some (Json.arr elems) =>
      match decodeEntries elems with
      | none => SuggestionsOutcome.decodeError
      | some entries =>
        SuggestionsOutcome.ok
          { totalCount := Int.ofNat entries.length, results := entries,
            next := none, previous := none }
    | some Json.null =>
      SuggestionsOutcome.ok
        { totalCount := 0, results := [], next := none, previous := none }
    | _ => SuggestionsOutcome.decodeError

/-- The provider configuration model: the four declared attributes, none
standing for a null (unset) value. -/
structure ProviderConfig where
  baseURL : Option String
  username : Option String
  password : Option String
  token : Option String

/-- The environment fallbacks read by Configure; a variable that is not
set reads as the empty string. -/
structure EnvVars where
  baseURL : String
  username : String
  password : String

/-- Outcome of JumpServerProvider.Configure. -/
inductive ConfigureOutcome where
  | ok (t : AuthTransport)
  | missingParams (baseURLMissing usernameMissing passwordMissing : Bool)
  | authError (msg : String)
deriving Repr, DecidableEq

/-- The effective base URL: the configuration value when set, else the
environment variable. -/
def resolvedBaseURL (cfg : ProviderConfig) (env : EnvVars) : String :=
  cfg.baseURL.getD env.baseURL

/-- The effective username: the configuration value when set, else the
environment variable. -/
def resolvedUsername (cfg : ProviderConfig) (env : EnvVars) : String :=
  cfg.username.getD env.username

/-- The effective password: the configuration value when set, else the
environment variable. -/
def resolvedPassword (cfg : ProviderConfig) (env : EnvVars) : String :=
  cfg.password.getD env.password

/-- JumpServerProvider.Configure, with the getToken network exchange
abstracted as an oracle from base URL, username, password to a token or
an authentication error: resolves the three connection parameters,
reports the missing ones, performs the token exchange, and on success
builds the authenticated transport from the exchanged token and the
resolved base URL. The token attribute of the configuration is never
consulted. -/
def configure (exchange : String → String → String → Except String String)
    (cfg : ProviderConfig) (env : EnvVars) : ConfigureOutcome :=
  let baseURL := resolvedBaseURL cfg env
  let username := resolvedUsername cfg env
  let password := resolvedPassword cfg env
  if baseURL = "" ∨ username = "" ∨ password = "" then
    ConfigureOutcome.missingParams (baseURL = "") (username = "") (password = "")
  else
    match exchange baseURL username password with
    | Except.error e => ConfigureOutcome.authError e
    | Except.ok token => ConfigureOutcome.ok { token := token, baseURL := baseURL }

/-- Response phase of getToken: the body must parse as JSON and contain a
token string field (an object with a token string; a nil map from a null
body has no such field). -/
def getTokenRespond (resp : ApiResponse) : Except String String :=
  match resp.json with
  | none => Except.error "decode error"
  | some j =>
    match decodeMap (some j) with
    | some fields =>
      match lookupLast "token" fields with
      | some (Json.str tok) => Except.ok tok
      | _ => Except.error "unable to fetch token"
    | none => Except.error "decode error"

/-- The account validation loop fails exactly when some element, rendered
and trimmed, fails UUID parsing. -/
theorem validateAssets_error_iff (l : List String) :
    (∃ e, validateAssets l = Except.error e)
      ↔ ∃ a ∈ l, uuidParseOk (trimCutset quoteCutset (tfStringRepr a)) = false := by
  induction l with
  | nil => simp [validateAssets]
  | cons a rest ih =>
    simp only [validateAssets]
    by_cases h : uuidParseOk (trimCutset quoteCutset (tfStringRepr a)) = true
    · rw [if_pos h]
      constructor
      · rintro ⟨e, he⟩
        revert he
        rcases hv : validateAssets rest with e2 | vs
        · intro _
          rcases ih.mp ⟨e2, hv⟩ with ⟨b, hb, hbf⟩
          exact ⟨b, List.mem_cons_of_mem a hb, hbf⟩
        · intro he
          exact absurd he (by simp)
      · rintro ⟨b, hb, hbf⟩
        rcases List.mem_cons.mp hb with hba | hbr
        · rw [hba, h] at hbf
          exact absurd hbf (by simp)
        · rcases ih.mpr ⟨b, hbr, hbf⟩ with ⟨e, he⟩
          rw [he]
          exact ⟨e, rfl⟩
    · rw [if_neg h]
      constructor
      · intro _
        exact ⟨a, List.mem_cons_self a rest, by simpa using h⟩
      · intro _
        exact ⟨trimCutset quoteCutset (tfStringRepr a), rfl⟩

/-- C2 (amended): account Create fails with a validation error if and
only if at least one element of the assets list, after trimming
surrounding double-quote characters (ASCII or typographic), fails
UUID-syntax parsing; and when it so fails, no HTTP request is sent. -/
theorem accountCreate_validation_iff (t : AuthTransport) (p : AccountPlan) :
    ((∃ e, accountCreateLocal p = AccountCreatePhase.validationError e)
        ↔ ∃ a ∈ p.assets, uuidParseOk (trimCutset quoteCutset (tfStringRepr a)) = false)
    ∧ ((∃ e, accountCreateLocal p = AccountCreatePhase.validationError e)
        → accountCreateRequests t p = []) := by
  constructor
  · rw [← validateAssets_error_iff]
    constructor
    · rintro ⟨e, he⟩
      unfold accountCreateLocal at he
      revert he
      rcases hv : validateAssets p.assets with e2 | vs
      · intro _
        exact ⟨e2, rfl⟩
      · intro he
        exact absurd he (by simp)
    · rintro ⟨e, he⟩
      refine ⟨e, ?_⟩
      unfold accountCreateLocal
      rw [he]
  · rintro ⟨e, he⟩
    unfold accountCreateRequests
    rw [he]

/-- Witness for C2: a plan whose single asset fails UUID parsing sends no
request. -/
theorem accountCreate_validation_iff_witness :
    accountCreateRequests { token := "tok", baseURL := "https://jumpserver.example.com" }
      { name := "a", username := "u", privileged := false, isActive := true,
        assets := ["not-a-uuid"] } = [] :=
  (accountCreate_validation_iff
    { token := "tok", baseURL := "https://jumpserver.example.com" }
    { name := "a", username := "u", privileged := false, isActive := true,
      assets := ["not-a-uuid"] }).2 ⟨"not-a-uuid", rfl⟩

/-- The account plan whose single asset element is a UUID wrapped in
typographic double quotes. -/
def accountPlanFancy : AccountPlan :=
  { name := "a", username := "u", privileged := false, isActive := true,
    assets := ["“00000000-0000-0000-0000-000000000000”"] }

/-- C2 counterexample: the claim as stated fails on a plan with a
typographically quoted UUID element. The element fails UUID-syntax
parsing, yet the create operation does not raise a validation error and
sends the bulk request, because the source trims quote characters before
parsing. -/
theorem accountCreate_validation_counterexample :
    ¬ ((∃ a ∈ accountPlanFancy.assets, uuidParseOk a = false)
        → accountCreateRequests { token := "tok", baseURL := "http://base" }
            accountPlanFancy = []) := by
  intro h
  have hreq := h ⟨"“00000000-0000-0000-0000-000000000000”", by simp [accountPlanFancy],
    by decide⟩
  have hlen : (accountCreateRequests { token := "tok", baseURL := "http://base" }
      accountPlanFancy).length = 1 := rfl
  rw [hreq] at hlen
  exact absurd hlen (by simp)

/-- C1 evidence: with a configured base URL of
https://jumpserver.example.com, the bulk-create request still goes to the
hardcoded constant URL, which differs from the concatenation of the
configured base URL with the bulk path. -/
theorem accountCreate_url_hardcoded :
    ((accountCreateRequests { token := "tok", baseURL := "https://jumpserver.example.com" }
        { name := "a", username := "u", privileged := false, isActive := true,
          assets := ["00000000-0000-0000-0000-000000000000"] }).map (fun r => r.url)
      = ["http://172.30.9.65/api/v1/accounts/accounts/bulk/"])
    ∧ "http://172.30.9.65/api/v1/accounts/accounts/bulk/"
        ≠ "https://jumpserver.example.com" ++ "/api/v1/accounts/accounts/bulk/" :=
  ⟨by decide, by decide⟩

/-- C6: both Update implementations have empty bodies: no HTTP request is
sent, no diagnostic is produced, and no state write happens. -/
theorem update_is_noop :
    hostUpdate.requests = [] ∧ hostUpdate.diagnostics = []
    ∧ hostUpdate.stateWritten = false
    ∧ accountUpdate.requests = [] ∧ accountUpdate.diagnostics = []
    ∧ accountUpdate.stateWritten = false :=
  ⟨rfl, rfl, rfl, rfl, rfl, rfl⟩

/-- C7 evidence: a protocol entry whose optional port attribute is null
is serialized with a port field of value 0, not without a port key: the
port key is always present in the attribute map of a declared protocol
object, so the presence check of the source never omits the field. -/
theorem protocol_port_serialized_when_null :
    protocolToJson { name := some "ssh", port := none }
      = Except.ok (Json.obj [("name", Json.str "ssh"), ("port", Json.num 0)]) := rfl

/-- C3: host Create records a new state exactly when the response has
status 201 and a JSON-object body with an id string field, and then the
captured identifier is that id written into the plan; in every other case
no identifier is recorded (the outcome is one of the error constructors
and the state stays absent). -/
theorem hostCreate_success_characterization (plan : HostPlan) (resp : ApiResponse) :
    hostCreateState plan resp
      = (respCreatedId resp).map (fun id => { plan with id := some id }) := by
  unfold hostCreateState hostCreateRespond respCreatedId
  by_cases h : resp.status = 201
  · rcases hm : decodeMap resp.json with _ | fields
    · simp [h, hm]
    · rcases hl : lookupLast "id" fields with _ | v
      · simp [h, hm, hl]
      · cases v <;> simp [h, hm, hl]
  · simp [h]

/-- C4: host Delete with a known identifier treats 200 and 204 as
success, removing the identifier from state, and any other status as an
API error carrying status and body, leaving the state intact. -/
theorem hostDelete_status_classes (state : HostPlan) (resp : ApiResponse)
    (hid : state.id.getD "" ≠ "") :
    ((resp.status = 200 ∨ resp.status = 204) →
        hostDelete state resp = HostDeleteOutcome.removed
        ∧ hostDeleteState state resp = none)
    ∧ (¬(resp.status = 200 ∨ resp.status = 204) →
        hostDelete state resp = HostDeleteOutcome.apiError resp.status resp.rawBody
        ∧ hostDeleteState state resp = some state) := by
  unfold hostDeleteState hostDelete
  constructor
  · intro hs
    have hnot : ¬(resp.status ≠ 204 ∧ resp.status ≠ 200) := by tauto
    simp [hid, hnot]
  · intro hs
    have h1 : resp.status ≠ 204 := by tauto
    have h2 : resp.status ≠ 200 := by tauto
    simp [hid, h1, h2]

/-- A host state with a known identifier, used as concrete input. -/
def hostStateKnown : HostPlan :=
  { id := some "abc123", name := some "web-1", ip := some "10.0.0.5",
    platform := some "Linux", nodesDisplay := some ["/Default"],
    protocols := [{ name := some "ssh", port := some 22 }] }

/-- A 204 No Content response. -/
def resp204 : ApiResponse :=
  { status := 204, rawBody := "", json := none }

/-- Witness for C4: deleting the known host against a 204 response
removes it from state. -/
theorem hostDelete_status_classes_witness :
    hostDelete hostStateKnown resp204 = HostDeleteOutcome.removed
    ∧ hostDeleteState hostStateKnown resp204 = none :=
  (hostDelete_status_classes hostStateKnown resp204 (by decide)).1 (Or.inr rfl)

/-- C5: host Read on a 200 response with a decodable object body merges
exactly the string-typed fields name, ip, platform that are present,
keeping the identifier, nodes display and protocols at their prior
values; a non-200 response is an API error with status and body and the
whole state is unchanged. -/
theorem hostRead_merge (state : HostPlan) (resp : ApiResponse) :
    (∀ fields, resp.status = 200 → decodeMap resp.json = some fields →
        hostRead state resp = HostReadOutcome.ok
          { state with
              name := mergeStr (lookupLast "name" fields) state.name,
              ip := mergeStr (lookupLast "ip" fields) state.ip,
              platform := mergeStr (lookupLast "platform" fields) state.platform })
    ∧ (resp.status ≠ 200 →
        hostRead state resp = HostReadOutcome.apiError resp.status resp.rawBody
        ∧ hostReadState state resp = state) := by
  constructor
  · intro fields h200 hdec
    rcases hn : lookupLast "name" fields with _ | v <;>
      (try cases v) <;>
      rcases hi : lookupLast "ip" fields with _ | w <;>
      (try cases w) <;>
      rcases hp : lookupLast "platform" fields with _ | u <;>
      (try cases u) <;>
      simp [hostRead, h200, hdec, hn, hi, hp, mergeStr]
  · intro hne
    unfold hostReadState hostRead
    simp [hne]

/-- A 200 response whose body carries a string name and a numeric
platform. -/
def respRead200 : ApiResponse :=
  { status := 200, rawBody := "body",
    json := some (Json.obj [("name", Json.str "web-2"), ("platform", Json.num 3)]) }

/-- Witness for C5: reading the known host against that response merges
the name, keeps the ip, ignores the mistyped platform, and keeps the
identifier, nodes display and protocols. -/
theorem hostRead_merge_witness :
    hostRead hostStateKnown respRead200 = HostReadOutcome.ok
      { id := some "abc123", name := some "web-2", ip := some "10.0.0.5",
        platform := some "Linux", nodesDisplay := some ["/Default"],
        protocols := [{ name := some "ssh", port := some 22 }] } :=
  (hostRead_merge hostStateKnown respRead200).1
    [("name", Json.str "web-2"), ("platform", Json.num 3)] rfl rfl

/-- Membership in one conditional string Add: the pair appears exactly
when the key matches and the filter is set to that value. -/
theorem mem_addIf (k v key : String) (o : Option String) :
    (k, v) ∈ addIf key o ↔ k = key ∧ some v = o := by
  cases o <;> simp [addIf]

/-- Membership in one conditional integer Add: the pair appears exactly
when the key matches and the filter is set, with the decimal rendering as
value. -/
theorem mem_addIfInt (k v key : String) (o : Option Int) :
    (k, v) ∈ addIfInt key o ↔ k = key ∧ some v = o.map toString := by
  cases o <;> simp [addIfInt]

/-- C8: a filter is serialized into the query parameters if and only if
its value is set, with exactly the set value; a filter set with only the
name populated yields exactly the single parameter pair, and its encoding
is the single name parameter. -/
theorem suggestions_filters_iff :
    (∀ (d : SuggestionsInput) (k v : String),
        (k, v) ∈ buildQueryParams d ↔ (k, some v) ∈ filterSpecs d)
    ∧ (∀ v : String, buildQueryParams (nameOnlyInput v) = [("name", v)])
    ∧ (∀ v : String,
        valuesEncode (buildQueryParams (nameOnlyInput v)) = "name=" ++ queryEscape v) := by
  refine ⟨?_, ?_, ?_⟩
  · intro d k v
    simp [buildQueryParams, filterSpecs, mem_addIf, mem_addIfInt, List.mem_append,
      Prod.mk.injEq, or_assoc]
  · intro v
    rfl
  · intro v
    rfl

/-- Sequential entry decoding preserves length and per-index
correspondence, in order. -/
theorem decodeEntries_spec (elems : List Json) (entries : List SuggestEntry)
    (h : decodeEntries elems = some entries) :
    entries.length = elems.length
    ∧ elems.map decodeSuggestionEntry = entries.map some := by
  induction elems generalizing entries with
  | nil =>
    simp only [decodeEntries, Option.some.injEq] at h
    subst h
    simp
  | cons e rest ih =>
    simp only [decodeEntries] at h
    revert h
    rcases hd : decodeSuggestionEntry e with _ | b
    · intro h
      exact absurd h (by simp)
    · rcases hr : decodeEntries rest with _ | bs
      · intro h
        exact absurd h (by simp)
      · intro h
        simp only [Option.some.injEq] at h
        subst h
        obtain ⟨ihl, ihm⟩ := ih bs hr
        constructor
        · simp [ihl]
        · simp [hd, ihm]

/-- C9: when the response body decodes as a JSON array, the reported
total count is the length of that array and the results are exactly one
typed entry per array element, in the same order. -/
theorem suggestions_count_and_results (resp : ApiResponse)
    (elems : List Json) (entries : List SuggestEntry)
    (h200 : resp.status = 200)
    (hjson : resp.json = some (Json.arr elems))
    (hdec : decodeEntries elems = some entries) :
    hostSuggestionsRespond resp
      = SuggestionsOutcome.ok
          { totalCount := Int.ofNat elems.length, results := entries,
            next := none, previous := none }
    ∧ entries.length = elems.length
    ∧ elems.map decodeSuggestionEntry = entries.map some := by
  obtain ⟨hl, hm⟩ := decodeEntries_spec elems entries hdec
  refine ⟨?_, hl, hm⟩
  simp [hostSuggestionsRespond, h200, hjson, hdec, hl]

/-- A 200 suggestions response whose body is an array of one object and
one null entry. -/
def suggestionsResp : ApiResponse :=
  { status := 200, rawBody := "response",
    json := some (Json.arr
      [Json.obj [("id", Json.str "h1"), ("name", Json.str "web")], Json.null]) }

/-- Witness for C9: that concrete array yields total count 2 and the two
entries in order. -/
theorem suggestions_count_and_results_witness :
    hostSuggestionsRespond suggestionsResp
      = SuggestionsOutcome.ok
          { totalCount := 2, results := [{ id := "h1", name := "web" }, { id := "", name := "" }],
            next := none, previous := none } :=
  (suggestions_count_and_results suggestionsResp
    [Json.obj [("id", Json.str "h1"), ("name", Json.str "web")], Json.null]
    [{ id := "h1", name := "web" }, { id := "", name := "" }] rfl rfl rfl).1

/-- C10: the optional token attribute of the provider configuration is
never consulted: Configure is invariant under any change of that
attribute, and on success the transport carries exactly the token
returned by the username and password exchange against the resolved base
URL. -/
theorem provider_token_attribute_unused :
    (∀ (exchange : String → String → String → Except String String)
        (cfg : ProviderConfig) (env : EnvVars) (t1 t2 : Option String),
        configure exchange { cfg with token := t1 } env
          = configure exchange { cfg with token := t2 } env)
    ∧ (∀ (exchange : String → String → String → Except String String)
        (cfg : ProviderConfig) (env : EnvVars) (tr : AuthTransport),
        configure exchange cfg env = ConfigureOutcome.ok tr →
          exchange (resolvedBaseURL cfg env) (resolvedUsername cfg env)
              (resolvedPassword cfg env)
            = Except.ok tr.token
          ∧ tr.baseURL = resolvedBaseURL cfg env) := by
  constructor
  · intro exchange cfg env t1 t2
    rfl
  · intro exchange cfg env tr h
    simp only [configure] at h
    by_cases hm : resolvedBaseURL cfg env = "" ∨ resolvedUsername cfg env = ""
        ∨ resolvedPassword cfg env = ""
    · rw [if_pos hm] at h
      exact absurd h (by simp)
    · rw [if_neg hm] at h
      revert h
      rcases hx : exchange (resolvedBaseURL cfg env) (resolvedUsername cfg env)
          (resolvedPassword cfg env) with e | tok
      · intro h
        exact absurd h (by simp)
      · intro h
        simp only [ConfigureOutcome.ok.injEq] at h
        subst h
        exact ⟨rfl, rfl⟩

/-- A constant token exchange oracle. -/
def exchangeConst : String → String → String → Except String String :=
  fun _ _ _ => Except.ok "tok"

/-- A provider configuration with all three connection attributes set and
no token attribute. -/
def cfgSample : ProviderConfig :=
  { baseURL := some "https://js.example", username := some "admin",
    password := some "pw", token := none }

/-- Empty environment fallbacks. -/
def envSample : EnvVars :=
  { baseURL := "", username := "", password := "" }

/-- Witness for C10: configuring with the sample inputs carries exactly
the exchanged token and the resolved base URL into the transport. -/
theorem provider_token_attribute_unused_witness :
    exchangeConst (resolvedBaseURL cfgSample envSample)
        (resolvedUsername cfgSample envSample) (resolvedPassword cfgSample envSample)
      = Except.ok (AuthTransport.token { token := "tok", baseURL := "https://js.example" })
    ∧ AuthTransport.baseURL { token := "tok", baseURL := "https://js.example" }
      = resolvedBaseURL cfgSample envSample :=
  provider_token_attribute_unused.2 exchangeConst cfgSample envSample
    { token := "tok", baseURL := "https://js.example" } rfl

end JumpServer
